import Mathlib

/-!
Verification of the topology generator in `generate_working_graph.py`.

The Python class `TopologyGenerator` keeps two mutable lists, `self.nodes`
and `self.edges`, and draws every node and edge identifier from
`uuid.uuid4()`.  `uuid4` reads operating-system entropy; it is not driven
by the `random` module, so `random.seed(s)` in `main` does not determine
the identifiers.  We model a generator state as the two lists together
with the uuid entropy stream `ent : Nat → Nat` and the position `pos` of
the next draw; `ent pos` is the value `uuid.uuid4()` returns next.
Identifiers are modelled as naturals (the Python strings are in bijection
with the 128-bit values drawn).  Python integers are `Int` where a
negative value can reach the code (socket indices, node counts) and `Nat`
where every call site passes a non-negative count (socket capacities).
-/

namespace NodeGraph

/-- A node dictionary as built by `TopologyGenerator.create_node`. -/
structure Node where
  id : Nat
  type : String
  x : Int
  y : Int
  inputs : Nat
  outputs : Nat
deriving Repr, DecidableEq

/-- An edge dictionary as built by `TopologyGenerator.create_edge`. -/
structure Edge where
  id : Nat
  fromNode : Nat
  toNode : Nat
  fromSocketIndex : Int
  toSocketIndex : Int
deriving Repr, DecidableEq

/-- The state of a `TopologyGenerator` object: the node and edge lists, plus
the uuid4 entropy stream `ent` and the index `pos` of the next draw. -/
structure TopologyGenerator where
  nodes : List Node
  edges : List Edge
  ent : Nat → Nat
  pos : Nat

/-- A fresh `TopologyGenerator()` with entropy stream `ent`. -/
def initTG (ent : Nat → Nat) : TopologyGenerator :=
  { nodes := [], edges := [], ent := ent, pos := 0 }

/-- The unchecked core of `create_node`: build the node dict with a fresh
uuid4 identifier and append it to `self.nodes`. -/
def mkNode (g : TopologyGenerator) (node_type : String) (x y : Int)
    (inputs outputs : Nat) : Node × TopologyGenerator :=
  let n : Node :=
    { id := g.ent g.pos, type := node_type, x := x, y := y,
      inputs := inputs, outputs := outputs }
  (n, { g with nodes := g.nodes ++ [n], pos := g.pos + 1 })

/-- `TopologyGenerator.create_node` (lines 26-40): raises `ValueError`
unless the type tag is exactly "IN" or "OUT", otherwise appends a node. -/
def create_node (g : TopologyGenerator) (node_type : String) (x y : Int)
    (inputs outputs : Nat) : Except String (Node × TopologyGenerator) :=
  if node_type = "IN" ∨ node_type = "OUT" then
    .ok (mkNode g node_type x y inputs outputs)
  else
    .error ("Invalid node type: " ++ node_type)

/-- The outcome of `create_edge`: the two `ValueError` raises, the silent
duplicate `return None`, or the appended edge. -/
inductive EdgeResult where
  | invalidFrom
  | invalidTo
  | duplicate
  | created (e : Edge)
deriving Repr, DecidableEq

/-- The duplicate test of `create_edge` lines 55-60: the exact quadruple
already stored. -/
def edgeMatches (fn tn : Nat) (fsi tsi : Int) (e : Edge) : Bool :=
  e.fromNode = fn ∧ e.toNode = tn ∧ e.fromSocketIndex = fsi ∧ e.toSocketIndex = tsi

/-- `TopologyGenerator.create_edge` (lines 42-70).  Validates the from
socket against `[inputs, inputs+outputs-1]` and the to socket against
`[0, inputs-1]`, skips exact duplicates, then appends the edge with a
fresh uuid4 identifier.  The source performs no check that the two nodes
differ. -/
def create_edge (g : TopologyGenerator) (from_node : Node) (from_socket_index : Int)
    (to_node : Node) (to_socket_index : Int) : EdgeResult × TopologyGenerator :=
  let from_max : Int := (from_node.inputs : Int) + (from_node.outputs : Int) - 1
  let to_max : Int := (to_node.inputs : Int) - 1
  if from_socket_index > from_max ∨ from_socket_index < (from_node.inputs : Int) then
    (.invalidFrom, g)
  else if to_socket_index > to_max ∨ to_socket_index < 0 then
    (.invalidTo, g)
  else if g.edges.any (edgeMatches from_node.id to_node.id from_socket_index to_socket_index) then
    (.duplicate, g)
  else
    let e : Edge :=
      { id := g.ent g.pos, fromNode := from_node.id, toNode := to_node.id,
        fromSocketIndex := from_socket_index, toSocketIndex := to_socket_index }
    (.created e, { g with edges := g.edges ++ [e], pos := g.pos + 1 })

/-- The socket indices already used as a source on `node` (lines 74-77). -/
def usedOutputs (g : TopologyGenerator) (node : Node) : List Int :=
  g.edges.filterMap (fun e => if e.fromNode = node.id then some e.fromSocketIndex else none)

/-- The socket indices already used as a destination on `node` (lines 88-91). -/
def usedInputs (g : TopologyGenerator) (node : Node) : List Int :=
  g.edges.filterMap (fun e => if e.toNode = node.id then some e.toSocketIndex else none)

/-- The scan `for i in range(count): if start+i not in used: return start+i`,
written with the running candidate index. -/
def findUnused (used : List Int) : Int → Nat → Option Int
  | _, 0 => none
  | start, count + 1 =>
    if start ∈ used then findUnused used (start + 1) count else some start

/-- `TopologyGenerator.get_available_output_socket` (lines 72-84). -/
def get_available_output_socket (g : TopologyGenerator) (node : Node) : Option Int :=
  findUnused (usedOutputs g node) (node.inputs : Int) node.outputs

/-- `TopologyGenerator.get_available_input_socket` (lines 86-97). -/
def get_available_input_socket (g : TopologyGenerator) (node : Node) : Option Int :=
  findUnused (usedInputs g node) 0 node.inputs

/-- Python `range(n)` for an `int` argument: empty when `n ≤ 0`. -/
def pyRange (n : Int) : List Nat := List.range n.toNat

/-- Fallback node for list indexing; unreachable at the indices the builders
use, where the node list is long enough by construction. -/
def defaultNode : Node :=
  { id := 0, type := "", x := 0, y := 0, inputs := 0, outputs := 0 }

/-- One iteration of the node-creation loop of `generate_chain_topology`
(lines 192-204).  The type check of `create_node` passes for the literal
tags "OUT" and "IN", so the success path `mkNode` is taken. -/
def chainNodeStep (node_count : Int) (g : TopologyGenerator) (i : Nat) : TopologyGenerator :=
  let x : Int := 100 + (i : Int) * 150
  let y : Int := 200
  if i = 0 then (mkNode g "OUT" x y 0 1).2
  else if (i : Int) = node_count - 1 then (mkNode g "IN" x y 1 0).2
  else (mkNode g "OUT" x y 1 1).2

/-- One iteration of the wiring loop of `generate_chain_topology`
(lines 207-216).  `create_edge` raises for none of the arguments this loop
passes, so threading its resulting state is the Python control flow. -/
def chainEdgeStep (g : TopologyGenerator) (i : Nat) : TopologyGenerator :=
  let from_node := g.nodes.getD i defaultNode
  let to_node := g.nodes.getD (i + 1) defaultNode
  let from_socket : Int := (from_node.inputs : Int) + 0
  (create_edge g from_node from_socket to_node 0).2

/-- `TopologyGenerator.generate_chain_topology` (lines 188-216). -/
def generate_chain_topology (g : TopologyGenerator) (node_count : Int) : TopologyGenerator :=
  let g1 := (pyRange node_count).foldl (chainNodeStep node_count) g
  (pyRange (node_count - 1)).foldl chainEdgeStep g1

/-- `TopologyGenerator.generate_star_topology` (lines 264-288).  The spoke
coordinates use floating-point trigonometry in the source; they never
influence validation or wiring, so they are abstracted into the position
functions `posX`, `posY`. -/
def generate_star_topology (posX posY : Nat → Int) (g : TopologyGenerator)
    (node_count : Int) : TopologyGenerator :=
  if node_count < 2 then g
  else
    let p := mkNode g "OUT" 300 200 0 (node_count - 1).toNat
    let hub := p.1
    (pyRange (node_count - 1)).foldl (fun g i =>
      let q := mkNode g "IN" (posX i) (posY i) 1 0
      (create_edge q.2 hub ((hub.inputs : Int) + (i : Int)) q.1 0).2) p.2

/-- `TopologyGenerator.generate_ring_topology` (lines 345-369), with the
trigonometric node positions abstracted as in the star builder.  Note the
wiring loop connects node `i` to node `(i+1) % node_count`, which for
`node_count = 1` is node `0` itself. -/
def generate_ring_topology (posX posY : Nat → Int) (g : TopologyGenerator)
    (node_count : Int) : TopologyGenerator :=
  let g1 := (pyRange node_count).foldl
    (fun g i => (mkNode g "OUT" (posX i) (posY i) 1 1).2) g
  (pyRange node_count).foldl (fun g i =>
    let from_node := g.nodes.getD i defaultNode
    let to_node := g.nodes.getD ((i + 1) % node_count.toNat) defaultNode
    let from_socket : Int := (from_node.inputs : Int) + 0
    (create_edge g from_node from_socket to_node 0).2) g1

/-- A serialized element of the output document: one `<node>` or `<edge>`
element with its attributes, in the order `to_xml` emits them. -/
inductive XmlElem where
  | nodeElem (id : Nat) (type : String) (x y : Int) (inputs outputs : Nat)
  | edgeElem (id : Nat) (fromNode toNode : Nat) (fromSocketIndex toSocketIndex : Int)
deriving Repr, DecidableEq

/-- The `<node>` element emitted for one node (lines 378-385). -/
def nodeToXml (n : Node) : XmlElem :=
  .nodeElem n.id n.type n.x n.y n.inputs n.outputs

/-- The `<edge>` element emitted for one edge (lines 388-394). -/
def edgeToXml (e : Edge) : XmlElem :=
  .edgeElem e.id e.fromNode e.toNode e.fromSocketIndex e.toSocketIndex

/-- `TopologyGenerator.to_xml` (lines 371-396): all nodes in list order,
then all edges in list order. -/
def to_xml (g : TopologyGenerator) : List XmlElem :=
  g.nodes.map nodeToXml ++ g.edges.map edgeToXml

/-- Whether a serialized element is a `<node>` element. -/
def isNodeXml : XmlElem → Bool
  | .nodeElem .. => true
  | .edgeElem .. => false

/-- Whether a serialized element is an `<edge>` element. -/
def isEdgeXml : XmlElem → Bool
  | .nodeElem .. => false
  | .edgeElem .. => true

/-- One full run of `main` for the `chain` topology (lines 453-492):
`random.seed(seed)` is called, the chain builder runs on a fresh
generator, and the store is serialized.  The chain builder makes no call
into the seeded `random` module; every identifier in the document is a
`uuid.uuid4()` draw from the OS entropy stream `ent`, which the seed does
not determine. -/
def run_chain (seed : Nat) (ent : Nat → Nat) (node_count : Int) : List XmlElem :=
  let _ := seed
  to_xml (generate_chain_topology (initTG ent) node_count)

/-- The undirected neighbours of a node id in the adjacency relation built
by `is_connected` (lines 105-108).  The source collects them into a set;
only membership matters downstream, so a list with possible repeats is an
equivalent model (the BFS skips already-visited entries). -/
def neighbors (g : TopologyGenerator) (nid : Nat) : List Nat :=
  g.edges.filterMap (fun e => if e.fromNode = nid then some e.toNode else none) ++
    g.edges.filterMap (fun e => if e.toNode = nid then some e.fromNode else none)

/-- The BFS loop of `is_connected` (lines 115-120): pop the queue front,
enqueue and mark each unvisited neighbour.  A node is marked visited when
enqueued, so at most `1 + 2*|edges|` ids are ever enqueued; that is the
fuel `is_connected` supplies, so the loop always drains its queue. -/
def bfsVisit (g : TopologyGenerator) : Nat → List Nat → List Nat → List Nat
  | 0, _, visited => visited
  | _ + 1, [], visited => visited
  | fuel + 1, nid :: rest, visited =>
    let qv := (neighbors g nid).foldl
      (fun (qv : List Nat × List Nat) m =>
        if m ∈ qv.2 then qv else (qv.1 ++ [m], qv.2 ++ [m]))
      (rest, visited)
    bfsVisit g fuel qv.1 qv.2

/-- `TopologyGenerator.is_connected` (lines 99-122): trivially true below
two nodes, else BFS from the first node in insertion order and compare the
visited count with the node count. -/
def is_connected (g : TopologyGenerator) : Bool :=
  if g.nodes.length ≤ 1 then true
  else
    match g.nodes with
    | [] => true
    | n :: _ =>
      (bfsVisit g (g.nodes.length + 2 * g.edges.length + 1) [n.id] [n.id]).length
        == g.nodes.length

/-- The component BFS of `ensure_connectivity` (lines 136-149): ids are
marked visited when popped, and each visit scans the whole edge list for
neighbours, so the queue may hold repeats.  Each pop consumes one unit of
fuel; `components` supplies more fuel than ids can ever be enqueued, so
the loop always drains. -/
def compBFS (edges : List Edge) : Nat → List Nat → List Nat → List Nat →
    List Nat × List Nat
  | 0, _, visited, comp => (visited, comp)
  | _ + 1, [], visited, comp => (visited, comp)
  | fuel + 1, nid :: rest, visited, comp =>
    if nid ∈ visited then compBFS edges fuel rest visited comp
    else
      let visited1 := visited ++ [nid]
      let comp1 := comp ++ [nid]
      let queue1 := edges.foldl (fun q e =>
        let q1 := if e.fromNode = nid ∧ e.toNode ∉ visited1 then q ++ [e.toNode] else q
        if e.toNode = nid ∧ e.fromNode ∉ visited1 then q1 ++ [e.fromNode] else q1) rest
      compBFS edges fuel queue1 visited1 comp1

/-- The component enumeration of `ensure_connectivity` (lines 130-152):
BFS from each node not yet visited, collecting the discovered component. -/
def components (g : TopologyGenerator) : List (List Nat) :=
  (g.nodes.foldl (fun (acc : List (List Nat) × List Nat) node =>
    if node.id ∈ acc.2 then acc
    else
      let fuel := 1 + (g.nodes.length + 2 * g.edges.length) * (2 * g.edges.length + 1)
      let vc := compBFS g.edges fuel [node.id] acc.2 []
      (if vc.2 = [] then acc.1 else acc.1 ++ [vc.2], vc.1)) ([], [])).1

/-- The lookup `node_dict[nid]` where `node_dict = {n['id']: n for n in
self.nodes}` (line 155): a dict comprehension keeps the last binding of a
repeated key. -/
def lookupNode (nodes : List Node) (nid : Nat) : Option Node :=
  nodes.reverse.find? (fun n => n.id == nid)

/-- The inner loop of the repair search (lines 170-183): for each candidate
destination with a nonzero input capacity, recompute both availability
queries and attempt `create_edge`; a raised `ValueError` is caught and the
scan continues, while a duplicate (returns `None`) or a created edge sets
`connected = True` and breaks. -/
def tryTargets (from_node : Node) : TopologyGenerator → List Node →
    TopologyGenerator × Bool
  | g, [] => (g, false)
  | g, to_node :: rest =>
    if to_node.inputs = 0 then tryTargets from_node g rest
    else
      match get_available_output_socket g from_node,
          get_available_input_socket g to_node with
      | some fs, some ts =>
        match create_edge g from_node fs to_node ts with
        | (.invalidFrom, g1) => tryTargets from_node g1 rest
        | (.invalidTo, g1) => tryTargets from_node g1 rest
        | (.duplicate, g1) => (g1, true)
        | (.created _, g1) => (g1, true)
      | _, _ => tryTargets from_node g rest

/-- The outer loop of the repair search (lines 163-183): skip sources with
no output capacity, stop at the first source for which the inner scan
connected the pair. -/
def trySources (targets : List Node) : TopologyGenerator → List Node →
    TopologyGenerator × Bool
  | g, [] => (g, false)
  | g, from_node :: rest =>
    if from_node.outputs = 0 then trySources targets g rest
    else
      match tryTargets from_node g targets with
      | (g1, true) => (g1, true)
      | (g1, false) => trySources targets g1 rest

/-- One component pair of the repair loop (lines 157-183): resolve both
component id lists through `node_dict` and run the nested search. -/
def connectPair (allNodes : List Node) (g : TopologyGenerator)
    (c1 c2 : List Nat) : TopologyGenerator × Bool :=
  trySources (c2.filterMap (lookupNode allNodes)) g (c1.filterMap (lookupNode allNodes))

/-- The pair iteration of `ensure_connectivity` (lines 157-186) over
adjacent components in discovery order, returning the indices of the pairs
for which the warning on line 186 is printed. -/
def repairLoop (allNodes : List Node) (g : TopologyGenerator) (i : Nat) :
    List (List Nat) → TopologyGenerator × List Nat
  | c1 :: c2 :: rest =>
    let p := connectPair allNodes g c1 c2
    let r := repairLoop allNodes p.1 (i + 1) (c2 :: rest)
    (r.1, if p.2 then r.2 else i :: r.2)
  | _ => (g, [])

/-- `TopologyGenerator.ensure_connectivity` (lines 124-186).  The second
component of the result is the list of warning messages (as pair indices)
printed for component pairs that could not be bridged; the Python function
finishes normally in every case. -/
def ensure_connectivity (g : TopologyGenerator) : TopologyGenerator × List Nat :=
  if is_connected g then (g, [])
  else repairLoop g.nodes g 0 (components g)

/-- Socket index `i` of `node` is used as a source by some stored edge:
what the scan on lines 74-77 collects. -/
def outputSocketUsed (g : TopologyGenerator) (node : Node) (i : Int) : Prop :=
  ∃ e ∈ g.edges, e.fromNode = node.id ∧ e.fromSocketIndex = i

/-- Socket index `i` of `node` is used as a destination by some stored
edge: what the scan on lines 88-91 collects. -/
def inputSocketUsed (g : TopologyGenerator) (node : Node) (i : Int) : Prop :=
  ∃ e ∈ g.edges, e.toNode = node.id ∧ e.toSocketIndex = i

/-- Every stored node id is an earlier draw of the uuid stream: the
invariant a run of the generator maintains. -/
def idsFromStream (g : TopologyGenerator) : Prop :=
  ∀ n ∈ g.nodes, ∃ j, j < g.pos ∧ n.id = g.ent j

/-- The node the chain builder creates at position `i` (lines 192-204). -/
def chainNodeSpec (ent : Nat → Nat) (node_count : Int) (i : Nat) : Node :=
  if i = 0 then
    { id := ent i, type := "OUT", x := 100 + (i : Int) * 150, y := 200, inputs := 0, outputs := 1 }
  else if (i : Int) = node_count - 1 then
    { id := ent i, type := "IN", x := 100 + (i : Int) * 150, y := 200, inputs := 1, outputs := 0 }
  else
    { id := ent i, type := "OUT", x := 100 + (i : Int) * 150, y := 200, inputs := 1, outputs := 1 }

/-- The edge the chain builder creates at position `i` (lines 207-216),
where `m` is the number of nodes created before the wiring loop starts. -/
def chainEdgeSpec (ent : Nat → Nat) (node_count : Int) (m : Nat) (i : Nat) : Edge :=
  { id := ent (m + i), fromNode := ent i, toNode := ent (i + 1),
    fromSocketIndex := ((chainNodeSpec ent node_count i).inputs : Int),
    toSocketIndex := 0 }

/-- The store of the chain builder after all nodes and the first `k` edges
are created, starting from a fresh store. -/
def chainStage (ent : Nat → Nat) (n : Int) (k : Nat) : TopologyGenerator :=
  { nodes := (List.range n.toNat).map (chainNodeSpec ent n),
    edges := (List.range k).map (chainEdgeSpec ent n n.toNat),
    ent := ent, pos := n.toNat + k }

/-- Whether a fallible call returned normally (no raised `ValueError`). -/
def exceptOk {α β : Type} : Except α β → Bool
  | .ok _ => true
  | .error _ => false

/-- The edge dict `create_edge` builds on its success path (lines 62-68),
named for use in statements. -/
def newEdge (g : TopologyGenerator) (fn tn : Node) (fsi tsi : Int) : Edge :=
  { id := g.ent g.pos, fromNode := fn.id, toNode := tn.id,
    fromSocketIndex := fsi, toSocketIndex := tsi }

/-- The store after `create_edge` appends an edge (line 69), named for use
in statements. -/
def appendEdge (g : TopologyGenerator) (e : Edge) : TopologyGenerator :=
  { g with edges := g.edges ++ [e], pos := g.pos + 1 }

/-- The node dict `create_node` builds (lines 31-38), named for use in
statements. -/
def specNode (g : TopologyGenerator) (ty : String) (x y : Int) (ins outs : Nat) : Node :=
  { id := g.ent g.pos, type := ty, x := x, y := y, inputs := ins, outputs := outs }

/-- The store after `create_node` appends a node (line 39), named for use
in statements. -/
def appendNode (g : TopologyGenerator) (n : Node) : TopologyGenerator :=
  { g with nodes := g.nodes ++ [n], pos := g.pos + 1 }

/-- Fixture: a node with one input and one output socket. -/
def selfNode : Node := { id := 7, type := "OUT", x := 0, y := 0, inputs := 1, outputs := 1 }

/-- Fixture: a store holding only `selfNode`. -/
def selfState : TopologyGenerator :=
  { nodes := [selfNode], edges := [], ent := fun k => k, pos := 1 }

/-- Fixture: a source node with one input and one output socket. -/
def wFromNode : Node := { id := 1, type := "OUT", x := 0, y := 0, inputs := 1, outputs := 1 }

/-- Fixture: a destination node with one input socket. -/
def wToNode : Node := { id := 2, type := "IN", x := 0, y := 0, inputs := 1, outputs := 0 }

/-- Fixture: a store holding the two nodes above and no edges. -/
def wEdgeState : TopologyGenerator :=
  { nodes := [wFromNode, wToNode], edges := [], ent := fun k => k, pos := 2 }

/-- Fixture: a node for the serializer stores. -/
def wSharedNode : Node := { id := 3, type := "OUT", x := 1, y := 2, inputs := 0, outputs := 1 }

/-- Fixture: a store with one node, entropy stream at position 1. -/
def wStoreA : TopologyGenerator :=
  { nodes := [wSharedNode], edges := [], ent := fun k => k, pos := 1 }

/-- Fixture: a store with the same contents as `wStoreA` but a different
entropy stream and position. -/
def wStoreB : TopologyGenerator :=
  { nodes := [wSharedNode], edges := [], ent := fun k => k + 5, pos := 9 }

/-- C1: the claim asserts two runs with the same seed yield byte-identical
documents.  This theorem evaluates the code at the failing input: two runs
of `chain --nodes 2 --seed 42` whose uuid4 OS-entropy streams differ (as
they do between any two real runs) serialize different documents, because
every id attribute is a uuid4 draw the seed does not determine. -/
theorem run_chain_seed_not_reproducible :
    run_chain 42 (fun k => k) 2 ≠ run_chain 42 (fun k => k + 1) 2 := by decide

/-- C2: a call to create_edge whose from-socket index is not a valid output
socket of the source node, or whose to-socket index is not a valid input
socket of the destination node, raises ValueError (the InvalidSocket
failure), is never clamped, and leaves the store unchanged. -/
theorem create_edge_invalid_socket (g : TopologyGenerator) (fn : Node) (fsi : Int)
    (tn : Node) (tsi : Int)
    (h : ¬((fn.inputs : Int) ≤ fsi ∧ fsi < (fn.inputs : Int) + (fn.outputs : Int)) ∨
      ¬(0 ≤ tsi ∧ tsi < (tn.inputs : Int))) :
    ((create_edge g fn fsi tn tsi).1 = .invalidFrom ∨
      (create_edge g fn fsi tn tsi).1 = .invalidTo) ∧
    (create_edge g fn fsi tn tsi).2 = g := by
  by_cases h1 : fsi > (fn.inputs : Int) + (fn.outputs : Int) - 1 ∨ fsi < (fn.inputs : Int)
  · simp [create_edge, h1]
  · have h2 : tsi > (tn.inputs : Int) - 1 ∨ tsi < 0 := by omega
    simp [create_edge, h1, h2]

/-- Witness for C2: socket index 0 is an input socket of `wFromNode`, not
an output socket, so using it as a from-socket fails and changes nothing. -/
theorem create_edge_invalid_socket_witness :
    ((create_edge wEdgeState wFromNode 0 wToNode 0).1 = .invalidFrom ∨
      (create_edge wEdgeState wFromNode 0 wToNode 0).1 = .invalidTo) ∧
    (create_edge wEdgeState wFromNode 0 wToNode 0).2 = wEdgeState :=
  create_edge_invalid_socket wEdgeState wFromNode 0 wToNode 0 (Or.inl (by decide))

/-- Counterexample for C3: create_edge with identical source and
destination node and valid socket indices is not rejected; it returns a
created edge and stores a self-loop. -/
theorem create_edge_accepts_self_loop :
    (create_edge selfState selfNode 1 selfNode 0).1 =
      .created { id := 1, fromNode := 7, toNode := 7, fromSocketIndex := 1, toSocketIndex := 0 } ∧
    ((create_edge selfState selfNode 1 selfNode 0).2.edges.map
      (fun e => (e.fromNode, e.toNode))) = [(7, 7)] := by
  exact ⟨by decide, by decide⟩

/-- C3 amended: create_edge performs no self-loop check.  A call whose
source and destination are the same node, with a valid output socket, a
valid input socket and no duplicate quadruple, succeeds and appends an
edge whose fromNode equals its toNode. -/
theorem create_edge_no_self_loop_check (g : TopologyGenerator) (n : Node) (fsi tsi : Int)
    (hfrom : (n.inputs : Int) ≤ fsi ∧ fsi < (n.inputs : Int) + (n.outputs : Int))
    (hto : 0 ≤ tsi ∧ tsi < (n.inputs : Int))
    (hdup : g.edges.any (edgeMatches n.id n.id fsi tsi) = false) :
    create_edge g n fsi n tsi = (.created (newEdge g n n fsi tsi), appendEdge g (newEdge g n n fsi tsi)) := by
  have h1 : ¬(fsi > (n.inputs : Int) + (n.outputs : Int) - 1 ∨ fsi < (n.inputs : Int)) := by
    omega
  have h2 : ¬(tsi > (n.inputs : Int) - 1 ∨ tsi < 0) := by omega
  simp [create_edge, h1, h2, hdup, newEdge, appendEdge]

/-- Witness for the amended C3 at a concrete store. -/
theorem create_edge_no_self_loop_check_witness :
    create_edge selfState selfNode 1 selfNode 0 =
      (.created (newEdge selfState selfNode selfNode 1 0),
        appendEdge selfState (newEdge selfState selfNode selfNode 1 0)) :=
  create_edge_no_self_loop_check selfState selfNode 1 0 (by decide) (by decide) (by decide)

/-- Counterexample for C5: create_node does not accept every type string;
the free-form tag "SOURCE" raises ValueError. -/
theorem create_node_rejects_free_form_type :
    exceptOk (create_node (initTG (fun k => k)) "SOURCE" 0 0 1 1) = false := by decide

/-- C5 amended: create_node succeeds exactly for the type tags "IN" and
"OUT", appending a node whose id is the next uuid4 draw; for any other
type string it raises ValueError and the store is unchanged.  When the
uuid stream is injective and all stored ids are earlier draws, the new id
is fresh and the invariant is preserved. -/
theorem create_node_spec (g : TopologyGenerator) (ty : String) (x y : Int)
    (ins outs : Nat) :
    ((ty = "IN" ∨ ty = "OUT") →
      create_node g ty x y ins outs =
        .ok (specNode g ty x y ins outs, appendNode g (specNode g ty x y ins outs))) ∧
    (¬(ty = "IN" ∨ ty = "OUT") →
      create_node g ty x y ins outs = .error ("Invalid node type: " ++ ty)) ∧
    (Function.Injective g.ent → idsFromStream g →
      ∀ p, create_node g ty x y ins outs = .ok p →
        p.1.id ∉ g.nodes.map Node.id ∧ idsFromStream p.2) := by
  refine ⟨fun hty => by simp [create_node, hty, mkNode, specNode, appendNode],
    fun hty => by simp [create_node, hty], ?_⟩
  intro hinj hids p hp
  by_cases hty : ty = "IN" ∨ ty = "OUT"
  · simp [create_node, hty, mkNode] at hp
    subst hp
    refine ⟨?_, ?_⟩
    · intro hmem
      simp only [List.mem_map] at hmem
      obtain ⟨n2, hn2, hid⟩ := hmem
      obtain ⟨j, hj, hje⟩ := hids n2 hn2
      rw [hje] at hid
      have hjp := hinj hid
      omega
    · intro n2 hn2
      simp only [List.mem_append, List.mem_singleton] at hn2
      rcases hn2 with hn2 | hn2
      · obtain ⟨j, hj, hje⟩ := hids n2 hn2
        exact ⟨j, Nat.lt_succ_of_lt hj, hje⟩
      · exact ⟨g.pos, Nat.lt_succ_self _, by rw [hn2]⟩
  · simp [create_node, hty] at hp

/-- C4: a create_edge call whose exact quadruple is already stored is a
silent no-op: it returns the duplicate indication, raises nothing, and the
store is unchanged; consequently calling create_edge twice with the same
valid arguments leaves the store exactly as one call does. -/
theorem create_edge_duplicate_noop (g : TopologyGenerator) (fn : Node) (fsi : Int)
    (tn : Node) (tsi : Int) :
    ((((fn.inputs : Int) ≤ fsi ∧ fsi < (fn.inputs : Int) + (fn.outputs : Int)) →
      (0 ≤ tsi ∧ tsi < (tn.inputs : Int)) →
      (∃ e ∈ g.edges, e.fromNode = fn.id ∧ e.toNode = tn.id ∧
        e.fromSocketIndex = fsi ∧ e.toSocketIndex = tsi) →
      create_edge g fn fsi tn tsi = (.duplicate, g))) ∧
    (∀ e g1, create_edge g fn fsi tn tsi = (.created e, g1) →
      create_edge g1 fn fsi tn tsi = (.duplicate, g1)) := by
  constructor
  · intro hf ht hdup
    have h1 : ¬(fsi > (fn.inputs : Int) + (fn.outputs : Int) - 1 ∨ fsi < (fn.inputs : Int)) := by
      omega
    have h2 : ¬(tsi > (tn.inputs : Int) - 1 ∨ tsi < 0) := by omega
    have hany : g.edges.any (edgeMatches fn.id tn.id fsi tsi) = true := by
      rw [List.any_eq_true]
      obtain ⟨e, he, ha, hb, hc2, hd⟩ := hdup
      exact ⟨e, he, by simp [edgeMatches, ha, hb, hc2, hd]⟩
    simp [create_edge, h1, h2, hany]
  · intro e g1 hc
    by_cases h1 : fsi > (fn.inputs : Int) + (fn.outputs : Int) - 1 ∨ fsi < (fn.inputs : Int)
    · simp [create_edge, h1] at hc
    · by_cases h2 : tsi > (tn.inputs : Int) - 1 ∨ tsi < 0
      · simp [create_edge, h1, h2] at hc
      · by_cases h3 : g.edges.any (edgeMatches fn.id tn.id fsi tsi) = true
        · simp [create_edge, h1, h2, h3] at hc
        · have h3f : g.edges.any (edgeMatches fn.id tn.id fsi tsi) = false := by
            simpa using h3
          simp [create_edge, h1, h2, h3f] at hc
          obtain ⟨he, hg⟩ := hc
          subst he
          subst hg
          simp [create_edge, h1, h2, newEdge, appendEdge]
          intro h4
          simp [edgeMatches]

/-- Counterexample for C6: the ring builder with node_count = 1 (below the
shape's minimum of 2) neither produces a valid degenerate graph nor fails
fast; it stores a self-loop edge, violating the no-self-loop invariant. -/
theorem ring_one_self_loop :
    ((generate_ring_topology (fun _ => 300) (fun _ => 200) (initTG (fun k => k)) 1).edges.map
      (fun e => (e.fromNode, e.toNode)) = [(0, 0)]) ∧
    (generate_ring_topology (fun _ => 300) (fun _ => 200) (initTG (fun k => k)) 1).nodes.length
      = 1 := by
  exact ⟨by decide, by decide⟩

/-- C6 amended: star with fewer than 2 nodes returns with the store
untouched, and chain with a node count of at most 1 (including negative
counts) produces a degenerate valid graph with no edges; but ring with
node_count = 1 appends a self-loop edge, and no InvalidTopologySize
condition exists in the code (the builders never raise). -/
theorem builders_below_minimum (posX posY : Nat → Int) (g : TopologyGenerator)
    (ent : Nat → Nat) :
    (∀ n : Int, n < 2 → generate_star_topology posX posY g n = g) ∧
    (∀ n : Int, n ≤ 1 →
      (generate_chain_topology (initTG ent) n).edges = [] ∧
      (generate_chain_topology (initTG ent) n).nodes.length = n.toNat) ∧
    ((generate_ring_topology posX posY (initTG ent) 1).edges.map
      (fun e => (e.fromNode, e.toNode)) = [(ent 0, ent 0)]) := by
  refine ⟨?_, ?_, ?_⟩
  · intro n hn
    simp [generate_star_topology, hn]
  · intro n hn
    have h0 : (n - 1).toNat = 0 := by omega
    by_cases h1 : n ≤ 0
    · have h2 : n.toNat = 0 := by omega
      simp [generate_chain_topology, pyRange, h2, h0, initTG]
    · have h2 : n.toNat = 1 := by omega
      simp [generate_chain_topology, pyRange, h2, h0, chainNodeStep, mkNode, initTG,
        List.range_succ, List.range_zero]
  · rfl

/-- Node elements pass the node filter. -/
theorem filter_nodeXml_nodes (l : List Node) :
    (l.map nodeToXml).filter isNodeXml = l.map nodeToXml := by
  induction l with
  | nil => rfl
  | cons a t ih => simp [nodeToXml, isNodeXml, List.filter_cons, ih]

/-- Edge elements are dropped by the node filter. -/
theorem filter_nodeXml_edges (l : List Edge) :
    (l.map edgeToXml).filter isNodeXml = [] := by
  induction l with
  | nil => rfl
  | cons a t ih => simp [edgeToXml, isNodeXml, List.filter_cons, ih]

/-- Node elements are dropped by the edge filter. -/
theorem filter_edgeXml_nodes (l : List Node) :
    (l.map nodeToXml).filter isEdgeXml = [] := by
  induction l with
  | nil => rfl
  | cons a t ih => simp [nodeToXml, isEdgeXml, List.filter_cons, ih]

/-- Edge elements pass the edge filter. -/
theorem filter_edgeXml_edges (l : List Edge) :
    (l.map edgeToXml).filter isEdgeXml = l.map edgeToXml := by
  induction l with
  | nil => rfl
  | cons a t ih => simp [edgeToXml, isEdgeXml, List.filter_cons, ih]

/-- C10: serialization is a pure function of the store contents, emits
exactly one node element per stored node and one edge element per stored
edge, with all node elements before all edge elements, each in the store's
insertion order. -/
theorem to_xml_spec (g h : TopologyGenerator) (hn : g.nodes = h.nodes)
    (he : g.edges = h.edges) :
    to_xml g = to_xml h ∧
    (to_xml g).filter isNodeXml = g.nodes.map nodeToXml ∧
    (to_xml g).filter isEdgeXml = g.edges.map edgeToXml ∧
    (to_xml g).countP isNodeXml = g.nodes.length ∧
    (to_xml g).countP isEdgeXml = g.edges.length ∧
    to_xml g = (to_xml g).filter isNodeXml ++ (to_xml g).filter isEdgeXml := by
  have f1 : (to_xml g).filter isNodeXml = g.nodes.map nodeToXml := by
    rw [to_xml, List.filter_append, filter_nodeXml_nodes, filter_nodeXml_edges,
      List.append_nil]
  have f2 : (to_xml g).filter isEdgeXml = g.edges.map edgeToXml := by
    rw [to_xml, List.filter_append, filter_edgeXml_nodes, filter_edgeXml_edges,
      List.nil_append]
  refine ⟨by rw [to_xml, to_xml, hn, he], f1, f2, ?_, ?_, ?_⟩
  · rw [List.countP_eq_length_filter, f1, List.length_map]
  · rw [List.countP_eq_length_filter, f2, List.length_map]
  · rw [f1, f2]; rfl

/-- Witness for C10 at two concrete stores that share contents but differ
in entropy stream and position. -/
theorem to_xml_spec_witness :
    to_xml wStoreA = to_xml wStoreB ∧
    (to_xml wStoreA).filter isNodeXml = wStoreA.nodes.map nodeToXml ∧
    (to_xml wStoreA).filter isEdgeXml = wStoreA.edges.map edgeToXml ∧
    (to_xml wStoreA).countP isNodeXml = wStoreA.nodes.length ∧
    (to_xml wStoreA).countP isEdgeXml = wStoreA.edges.length ∧
    to_xml wStoreA = (to_xml wStoreA).filter isNodeXml ++ (to_xml wStoreA).filter isEdgeXml :=
  to_xml_spec wStoreA wStoreB rfl rfl

/-- The linear scan `findUnused` returns the least candidate not in `used`
when it returns one. -/
theorem findUnused_some (used : List Int) :
    ∀ (count : Nat) (start r : Int), findUnused used start count = some r →
      start ≤ r ∧ r < start + (count : Int) ∧ r ∉ used ∧
      ∀ j, start ≤ j → j < r → j ∈ used := by
  intro count
  induction count with
  | zero =>
    intro start r h
    simp [findUnused] at h
  | succ k ih =>
    intro start r h
    by_cases hs : start ∈ used
    · simp only [findUnused, if_pos hs] at h
      obtain ⟨h1, h2, h3, h4⟩ := ih (start + 1) r h
      refine ⟨by omega, by push_cast at h2 ⊢; omega, h3, ?_⟩
      intro j hj1 hj2
      by_cases hj : j = start
      · rw [hj]; exact hs
      · exact h4 j (by omega) hj2
    · simp only [findUnused, if_neg hs] at h
      obtain rfl := Option.some.inj h
      exact ⟨le_refl _, by push_cast; omega, hs, fun j hj1 hj2 => absurd hj2 (by omega)⟩

/-- The linear scan `findUnused` returns none only when every candidate in
its range is in `used`. -/
theorem findUnused_none (used : List Int) :
    ∀ (count : Nat) (start : Int), findUnused used start count = none →
      ∀ j, start ≤ j → j < start + (count : Int) → j ∈ used := by
  intro count
  induction count with
  | zero =>
    intro start h j hj1 hj2
    push_cast at hj2
    omega
  | succ k ih =>
    intro start h j hj1 hj2
    by_cases hs : start ∈ used
    · simp only [findUnused, if_pos hs] at h
      by_cases hj : j = start
      · rw [hj]; exact hs
      · exact ih (start + 1) h j (by omega) (by push_cast at hj2 ⊢; omega)
    · simp only [findUnused, if_neg hs] at h
      exact absurd h (by simp)

/-- Membership in the collected source-usage list coincides with the
existence of a stored edge using the socket as a source. -/
theorem mem_usedOutputs (g : TopologyGenerator) (node : Node) (i : Int) :
    i ∈ usedOutputs g node ↔ outputSocketUsed g node i := by
  simp only [usedOutputs, outputSocketUsed, List.mem_filterMap]
  constructor
  · rintro ⟨e, he, hif⟩
    by_cases hf : e.fromNode = node.id
    · rw [if_pos hf] at hif
      exact ⟨e, he, hf, Option.some.inj hif⟩
    · rw [if_neg hf] at hif
      exact absurd hif (by simp)
  · rintro ⟨e, he, hf, hi⟩
    exact ⟨e, he, by rw [if_pos hf, hi]⟩

/-- Membership in the collected destination-usage list coincides with the
existence of a stored edge using the socket as a destination. -/
theorem mem_usedInputs (g : TopologyGenerator) (node : Node) (i : Int) :
    i ∈ usedInputs g node ↔ inputSocketUsed g node i := by
  simp only [usedInputs, inputSocketUsed, List.mem_filterMap]
  constructor
  · rintro ⟨e, he, hif⟩
    by_cases hf : e.toNode = node.id
    · rw [if_pos hf] at hif
      exact ⟨e, he, hf, Option.some.inj hif⟩
    · rw [if_neg hf] at hif
      exact absurd hif (by simp)
  · rintro ⟨e, he, hf, hi⟩
    exact ⟨e, he, by rw [if_pos hf, hi]⟩

/-- C7: get_available_output_socket returns the lowest output-socket index
in the range derived from the node's capacities that no stored edge uses
as a source on that node, or none exactly when every output index is used;
get_available_input_socket is the symmetric statement over destinations. -/
theorem available_socket_spec (g : TopologyGenerator) (node : Node) :
    (∀ r, get_available_output_socket g node = some r →
      (node.inputs : Int) ≤ r ∧ r < (node.inputs : Int) + (node.outputs : Int) ∧
      ¬outputSocketUsed g node r ∧
      ∀ j, (node.inputs : Int) ≤ j → j < r → outputSocketUsed g node j) ∧
    (get_available_output_socket g node = none →
      ∀ j, (node.inputs : Int) ≤ j → j < (node.inputs : Int) + (node.outputs : Int) →
        outputSocketUsed g node j) ∧
    (∀ r, get_available_input_socket g node = some r →
      0 ≤ r ∧ r < (node.inputs : Int) ∧ ¬inputSocketUsed g node r ∧
      ∀ j, 0 ≤ j → j < r → inputSocketUsed g node j) ∧
    (get_available_input_socket g node = none →
      ∀ j, 0 ≤ j → j < (node.inputs : Int) → inputSocketUsed g node j) := by
  refine ⟨?_, ?_, ?_, ?_⟩
  · intro r h
    obtain ⟨h1, h2, h3, h4⟩ :=
      findUnused_some (usedOutputs g node) node.outputs (node.inputs : Int) r h
    refine ⟨h1, h2, fun hc => h3 ((mem_usedOutputs g node r).mpr hc), ?_⟩
    intro j hj1 hj2
    exact (mem_usedOutputs g node j).mp (h4 j hj1 hj2)
  · intro h j hj1 hj2
    exact (mem_usedOutputs g node j).mp
      (findUnused_none (usedOutputs g node) node.outputs (node.inputs : Int) h j hj1 hj2)
  · intro r h
    obtain ⟨h1, h2, h3, h4⟩ :=
      findUnused_some (usedInputs g node) node.inputs 0 r h
    refine ⟨h1, by simpa using h2, fun hc => h3 ((mem_usedInputs g node r).mpr hc), ?_⟩
    intro j hj1 hj2
    exact (mem_usedInputs g node j).mp (h4 j hj1 hj2)
  · intro h j hj1 hj2
    exact (mem_usedInputs g node j).mp
      (findUnused_none (usedInputs g node) node.inputs 0 h j hj1 (by simpa using hj2))

/-- create_edge either returns one of its three non-success results with
the store untouched, or appends exactly the constructed edge. -/
theorem create_edge_shape (g : TopologyGenerator) (fn : Node) (fsi : Int)
    (tn : Node) (tsi : Int) :
    (∃ r, create_edge g fn fsi tn tsi = (r, g) ∧
      (r = .invalidFrom ∨ r = .invalidTo ∨ r = .duplicate)) ∨
    create_edge g fn fsi tn tsi =
      (.created (newEdge g fn tn fsi tsi), appendEdge g (newEdge g fn tn fsi tsi)) := by
  by_cases h1 : fsi > (fn.inputs : Int) + (fn.outputs : Int) - 1 ∨ fsi < (fn.inputs : Int)
  · exact Or.inl ⟨.invalidFrom, by simp [create_edge, h1], Or.inl rfl⟩
  · by_cases h2 : tsi > (tn.inputs : Int) - 1 ∨ tsi < 0
    · exact Or.inl ⟨.invalidTo, by simp [create_edge, h1, h2], Or.inr (Or.inl rfl)⟩
    · by_cases h3 : g.edges.any (edgeMatches fn.id tn.id fsi tsi) = true
      · exact Or.inl ⟨.duplicate, by simp [create_edge, h1, h2, h3], Or.inr (Or.inr rfl)⟩
      · have h3f : g.edges.any (edgeMatches fn.id tn.id fsi tsi) = false := by
          simpa using h3
        exact Or.inr (by simp [create_edge, h1, h2, h3f, newEdge, appendEdge])

/-- The inner repair scan never touches the node list, appends at most one
edge, and leaves the store untouched when it fails. -/
theorem tryTargets_frame (fn : Node) :
    ∀ (ts : List Node) (g : TopologyGenerator),
      (tryTargets fn g ts).1.nodes = g.nodes ∧
      (∃ t, (tryTargets fn g ts).1.edges = g.edges ++ t ∧ t.length ≤ 1) ∧
      ((tryTargets fn g ts).2 = false → (tryTargets fn g ts).1 = g) := by
  intro ts
  induction ts with
  | nil =>
    intro g
    exact ⟨rfl, ⟨[], by simp [tryTargets], by simp⟩, fun _ => rfl⟩
  | cons tnode rest ih =>
    intro g
    by_cases hz : tnode.inputs = 0
    · simpa [tryTargets, hz] using ih g
    · cases hfs : get_available_output_socket g fn with
      | none =>
        have hred : tryTargets fn g (tnode :: rest) = tryTargets fn g rest := by
          simp [tryTargets, hz, hfs]
        rw [hred]
        exact ih g
      | some fs =>
        cases hts : get_available_input_socket g tnode with
        | none =>
          have hred : tryTargets fn g (tnode :: rest) = tryTargets fn g rest := by
            simp [tryTargets, hz, hfs, hts]
          rw [hred]
          exact ih g
        | some ts2 =>
          rcases create_edge_shape g fn fs tnode ts2 with ⟨r, hcr, hr⟩ | hcr
          · have hred : tryTargets fn g (tnode :: rest) =
                (if r = .duplicate then (g, true) else tryTargets fn g rest) := by
              rcases hr with rfl | rfl | rfl <;> simp [tryTargets, hz, hfs, hts, hcr]
            rcases hr with rfl | rfl | rfl
            · rw [hred, if_neg (by simp)]; exact ih g
            · rw [hred, if_neg (by simp)]; exact ih g
            · rw [hred, if_pos rfl]
              exact ⟨rfl, ⟨[], by simp, by simp⟩, by simp⟩
          · have hred : tryTargets fn g (tnode :: rest) =
                (appendEdge g (newEdge g fn tnode fs ts2), true) := by
              simp [tryTargets, hz, hfs, hts, hcr]
            rw [hred]
            exact ⟨rfl, ⟨[newEdge g fn tnode fs ts2], rfl, by simp⟩, by simp⟩

/-- The outer repair scan never touches the node list and appends at most
one edge per component pair. -/
theorem trySources_frame (targets : List Node) :
    ∀ (srcs : List Node) (g : TopologyGenerator),
      (trySources targets g srcs).1.nodes = g.nodes ∧
      ∃ t, (trySources targets g srcs).1.edges = g.edges ++ t ∧ t.length ≤ 1 := by
  intro srcs
  induction srcs with
  | nil =>
    intro g
    exact ⟨rfl, ⟨[], by simp [trySources], by simp⟩⟩
  | cons s rest ih =>
    intro g
    by_cases hz : s.outputs = 0
    · simpa [trySources, hz] using ih g
    · obtain ⟨hn1, ⟨t1, he1, hl1⟩, hfix⟩ := tryTargets_frame s targets g
      rcases htt : tryTargets s g targets with ⟨g1, flag⟩
      rw [htt] at hn1 he1 hfix
      cases flag with
      | true =>
        have hred : trySources targets g (s :: rest) = (g1, true) := by
          simp [trySources, hz, htt]
        rw [hred]
        exact ⟨hn1, ⟨t1, he1, hl1⟩⟩
      | false =>
        have hg1 : g1 = g := hfix rfl
        have hred : trySources targets g (s :: rest) = trySources targets g1 rest := by
          simp [trySources, hz, htt]
        rw [hred, hg1]
        exact ih g


/-- The pair loop of the repair never touches the node list and appends at
most one edge per adjacent component pair. -/
theorem repairLoop_frame (allNodes : List Node) :
    ∀ (comps : List (List Nat)) (g : TopologyGenerator) (i : Nat),
      (repairLoop allNodes g i comps).1.nodes = g.nodes ∧
      ∃ t, (repairLoop allNodes g i comps).1.edges = g.edges ++ t ∧
        t.length ≤ comps.length - 1 := by
  intro comps
  induction comps with
  | nil =>
    intro g i
    exact ⟨rfl, ⟨[], by simp [repairLoop], by simp⟩⟩
  | cons c1 tail ih =>
    intro g i
    cases tail with
    | nil => exact ⟨rfl, ⟨[], by simp [repairLoop], by simp⟩⟩
    | cons c2 rest =>
      obtain ⟨hcn, ⟨t1, hce, hcl⟩⟩ :=
        trySources_frame (c2.filterMap (lookupNode allNodes)) (c1.filterMap (lookupNode allNodes)) g
      obtain ⟨hrn, ⟨t2, hre, hrl⟩⟩ := ih (connectPair allNodes g c1 c2).1 (i + 1)
      have hred1 : (repairLoop allNodes g i (c1 :: c2 :: rest)).1 =
          (repairLoop allNodes (connectPair allNodes g c1 c2).1 (i + 1) (c2 :: rest)).1 := by
        simp [repairLoop]
      constructor
      · rw [hred1, hrn]
        exact hcn.trans rfl
      · refine ⟨t1 ++ t2, ?_, ?_⟩
        · rw [hred1, hre]
          rw [show (connectPair allNodes g c1 c2).1.edges = g.edges ++ t1 from hce]
          rw [List.append_assoc]
        · simp only [List.length_cons] at hrl
          simp only [List.length_append, List.length_cons]
          omega

/-- C8: ensure_connectivity is the identity (and warns nothing) when the
graph is already connected; otherwise it never removes or modifies a node
or an edge, only appends bridging edges, at most one per adjacent
component pair, and returns normally with its warning list. -/
theorem ensure_connectivity_frame (g : TopologyGenerator) :
    (ensure_connectivity g).1.nodes = g.nodes ∧
    (∃ t, (ensure_connectivity g).1.edges = g.edges ++ t ∧
      t.length ≤ (components g).length - 1) ∧
    (is_connected g = true → ensure_connectivity g = (g, [])) := by
  by_cases hc : is_connected g = true
  · refine ⟨?_, ⟨[], ?_, by simp⟩, fun _ => ?_⟩ <;> simp [ensure_connectivity, hc]
  · have hcf : is_connected g = false := by simpa using hc
    obtain ⟨hn, ⟨t, he, hl⟩⟩ := repairLoop_frame g.nodes (components g) g 0
    refine ⟨?_, ⟨t, ?_, hl⟩, fun h => absurd h hc⟩
    · rw [ensure_connectivity, if_neg (by simp [hcf])]
      exact hn
    · rw [ensure_connectivity, if_neg (by simp [hcf])]
      exact he

/-- The chain node spec has id equal to its uuid draw. -/
theorem chainNodeSpec_id (ent : Nat → Nat) (n : Int) (i : Nat) :
    (chainNodeSpec ent n i).id = ent i := by
  unfold chainNodeSpec
  split_ifs <;> rfl

/-- The chain node spec gives the first node no input socket and every
other node one input socket. -/
theorem chainNodeSpec_inputs (ent : Nat → Nat) (n : Int) (i : Nat) :
    (chainNodeSpec ent n i).inputs = if i = 0 then 0 else 1 := by
  by_cases h1 : i = 0
  · simp [chainNodeSpec, h1]
  · by_cases h2 : (i : Int) = n - 1
    · simp [chainNodeSpec, h1, h2]
    · simp [chainNodeSpec, h1, h2]

/-- Every chain node except the last has exactly one output socket. -/
theorem chainNodeSpec_outputs_mid (ent : Nat → Nat) (n : Int) (i : Nat)
    (h : (i : Int) ≠ n - 1) : (chainNodeSpec ent n i).outputs = 1 := by
  by_cases h1 : i = 0
  · simp [chainNodeSpec, h1]
  · simp [chainNodeSpec, h1, h]

/-- The last chain node is a pure input node. -/
theorem chainNodeSpec_last (ent : Nat → Nat) (n : Int) (i : Nat) (h0 : i ≠ 0)
    (h : (i : Int) = n - 1) :
    (chainNodeSpec ent n i).inputs = 1 ∧ (chainNodeSpec ent n i).outputs = 0 := by
  simp [chainNodeSpec, h0, h]

/-- The node-creation loop of the chain builder produces exactly the spec
nodes, in order, with the uuid stream advanced once per node. -/
theorem chain_nodes_fold (ent : Nat → Nat) (n : Int) :
    ∀ k : Nat, (List.range k).foldl (chainNodeStep n) (initTG ent) =
      { nodes := (List.range k).map (chainNodeSpec ent n), edges := [],
        ent := ent, pos := k } := by
  intro k
  induction k with
  | zero => rfl
  | succ m ih =>
    rw [List.range_succ, List.foldl_append, ih, List.foldl_cons, List.foldl_nil,
      List.map_append, List.map_cons, List.map_nil]
    simp only [chainNodeStep, chainNodeSpec, mkNode]
    split_ifs <;> rfl

/-- Indexing into the spec node list hits the spec node. -/
theorem chain_nodes_getD (ent : Nat → Nat) (n : Int) (m i : Nat) (h : i < m) :
    ((List.range m).map (chainNodeSpec ent n)).getD i defaultNode =
      chainNodeSpec ent n i := by
  rw [List.getD_eq_getElem ((List.range m).map (chainNodeSpec ent n)) defaultNode
    (by simpa using h)]
  simp

/-- One iteration of the chain wiring loop appends exactly the spec edge
for that position. -/
theorem chain_edge_step (ent : Nat → Nat) (n : Int) (hinj : Function.Injective ent)
    (hn2 : 2 ≤ n) (j : Nat) (hj : j < n.toNat - 1) :
    chainEdgeStep (chainStage ent n j) j = chainStage ent n (j + 1) := by
  have hmn : ((n.toNat : Int)) = n := Int.toNat_of_nonneg (by omega)
  have hjm : j < n.toNat := by omega
  have hj1m : j + 1 < n.toNat := by omega
  have hjne : ((j : Int)) ≠ n - 1 := by omega
  have hfo : (chainNodeSpec ent n j).outputs = 1 := chainNodeSpec_outputs_mid ent n j hjne
  have hti : (chainNodeSpec ent n (j + 1)).inputs = 1 := by
    rw [chainNodeSpec_inputs]
    simp
  simp only [chainStage, chainEdgeStep]
  rw [chain_nodes_getD ent n n.toNat j hjm, chain_nodes_getD ent n n.toNat (j + 1) hj1m]
  have h1 : ¬(((chainNodeSpec ent n j).inputs : Int) + 0 >
      ((chainNodeSpec ent n j).inputs : Int) + ((chainNodeSpec ent n j).outputs : Int) - 1 ∨
      ((chainNodeSpec ent n j).inputs : Int) + 0 < ((chainNodeSpec ent n j).inputs : Int)) := by
    rw [hfo]
    push_cast
    omega
  have h2 : ¬((0 : Int) > ((chainNodeSpec ent n (j + 1)).inputs : Int) - 1 ∨ (0 : Int) < 0) := by
    rw [hti]
    norm_num
  have h3 : ((List.range j).map (chainEdgeSpec ent n n.toNat)).any
      (edgeMatches (chainNodeSpec ent n j).id (chainNodeSpec ent n (j + 1)).id
        (((chainNodeSpec ent n j).inputs : Int) + 0) 0) = false := by
    rw [List.any_eq_false]
    intro e he
    simp only [List.mem_map, List.mem_range] at he
    obtain ⟨i, hi, rfl⟩ := he
    simp only [edgeMatches, chainEdgeSpec, chainNodeSpec_id, decide_eq_false_iff_not,
      not_and]
    intro hA
    have hand := of_decide_eq_true hA
    exact absurd (hinj hand.1) (by omega)
  simp only [create_edge, h1, h2, h3, if_false, ite_false, if_neg, not_false_iff]
  simp [chainEdgeSpec, chainNodeSpec_id, List.range_succ, TopologyGenerator.mk.injEq]
  omega

/-- The wiring loop of the chain builder produces exactly the spec edges,
in order, with the uuid stream advanced once per edge. -/
theorem chain_edges_fold (ent : Nat → Nat) (n : Int) (hinj : Function.Injective ent)
    (hn2 : 2 ≤ n) :
    ∀ k : Nat, k ≤ n.toNat - 1 →
      (List.range k).foldl chainEdgeStep (chainStage ent n 0) = chainStage ent n k := by
  intro k
  induction k with
  | zero =>
    intro _
    rfl
  | succ j ih =>
    intro hk
    rw [List.range_succ, List.foldl_append, ih (by omega), List.foldl_cons, List.foldl_nil]
    exact chain_edge_step ent n hinj hn2 j (by omega)

/-- C9: for every node count of at least 2 (with the uuid stream injective,
as uuid4 draws are), the chain builder produces exactly n nodes whose
capacities are 0-in/1-out for node 0, 1-in/0-out for the last node and
1-in/1-out for middle nodes, and exactly n-1 edges, edge i running from
node i's sole output socket (index inputs+0) to node i+1's input socket 0;
in particular chain(3) yields exactly 3 nodes, 2 edges wired
(n0,s0)->(n1,s0) and (n1,s1)->(n2,s0), and a connected graph. -/
theorem chain_topology_spec (ent : Nat → Nat) (n : Int)
    (hinj : Function.Injective ent) (hn2 : 2 ≤ n) :
    (generate_chain_topology (initTG ent) n).nodes =
      (List.range n.toNat).map (chainNodeSpec ent n) ∧
    (generate_chain_topology (initTG ent) n).edges =
      (List.range (n.toNat - 1)).map (chainEdgeSpec ent n n.toNat) ∧
    (generate_chain_topology (initTG ent) n).nodes.length = n.toNat ∧
    (generate_chain_topology (initTG ent) n).edges.length = n.toNat - 1 ∧
    (chainNodeSpec ent n 0).inputs = 0 ∧ (chainNodeSpec ent n 0).outputs = 1 ∧
    (chainNodeSpec ent n (n.toNat - 1)).inputs = 1 ∧
    (chainNodeSpec ent n (n.toNat - 1)).outputs = 0 ∧
    (∀ i, 0 < i → i < n.toNat - 1 →
      (chainNodeSpec ent n i).inputs = 1 ∧ (chainNodeSpec ent n i).outputs = 1) ∧
    (∀ i, i < n.toNat - 1 →
      chainEdgeSpec ent n n.toNat i =
        { id := ent (n.toNat + i), fromNode := (chainNodeSpec ent n i).id,
          toNode := (chainNodeSpec ent n (i + 1)).id,
          fromSocketIndex := ((chainNodeSpec ent n i).inputs : Int) + 0,
          toSocketIndex := 0 }) ∧
    ((generate_chain_topology (initTG (fun k => k)) 3).nodes.map
      (fun nd => (nd.type, nd.inputs, nd.outputs)) =
      [("OUT", 0, 1), ("OUT", 1, 1), ("IN", 1, 0)]) ∧
    ((generate_chain_topology (initTG (fun k => k)) 3).edges.map
      (fun e => (e.fromNode, e.fromSocketIndex, e.toNode, e.toSocketIndex)) =
      [(0, 0, 1, 0), (1, 1, 2, 0)]) ∧
    is_connected (generate_chain_topology (initTG (fun k => k)) 3) = true := by
  have hmn : ((n.toNat : Int)) = n := Int.toNat_of_nonneg (by omega)
  have hkey : generate_chain_topology (initTG ent) n = chainStage ent n (n.toNat - 1) := by
    unfold generate_chain_topology
    have hpr2 : pyRange (n - 1) = List.range (n.toNat - 1) := by
      unfold pyRange
      congr 1
      omega
    rw [hpr2, show pyRange n = List.range n.toNat from rfl, chain_nodes_fold ent n n.toNat]
    exact chain_edges_fold ent n hinj hn2 (n.toNat - 1) (le_refl _)
  refine ⟨by rw [hkey]; rfl, by rw [hkey]; rfl, ?_, ?_, ?_, ?_, ?_, ?_, ?_, ?_,
    by decide, by decide, by decide⟩
  · rw [hkey]
    simp [chainStage]
  · rw [hkey]
    simp [chainStage]
  · simp [chainNodeSpec_inputs]
  · simp [chainNodeSpec]
  · exact (chainNodeSpec_last ent n (n.toNat - 1) (by omega) (by omega)).1
  · exact (chainNodeSpec_last ent n (n.toNat - 1) (by omega) (by omega)).2
  · intro i h0 h1
    constructor
    · rw [chainNodeSpec_inputs]
      simp [Nat.pos_iff_ne_zero.mp h0]
    · exact chainNodeSpec_outputs_mid ent n i (by omega)
  · intro i hi
    simp [chainEdgeSpec, chainNodeSpec_id]

/-- Witness for C9 at node count 3 with the identity uuid stream. -/
theorem chain_topology_spec_witness :
    (generate_chain_topology (initTG (fun k => k)) 3).nodes.length = (3 : Int).toNat :=
  (chain_topology_spec (fun k => k) 3 (fun a b h => h) (by decide)).2.2.1

end NodeGraph
